import Mathlib

/-!
Verification of the tablelib core: Entry / Matrix / header-span model /
format parser, shallowly embedded from `src/utils.mjs`, `src/matrix.mjs`
and `src/entry.mjs` (Table and parser part).
-/

namespace Tablelib

/-- Domain of JS values that can live in a table cell.  `Val.empty` models the
exported `Empty` symbol from `utils.mjs`; JS `undefined` and `null` are
`Val.undef` and `Val.null`, so they are ordinary storable values, distinct from
the sentinel. -/
inductive Val where
  | empty
  | undef
  | null
  | boolean (b : Bool)
  | num (n : Int)
  | str (s : String)
deriving DecidableEq, Repr

/-- An `Entry` wraps one cell value; emptiness is `value === Empty`. -/
abbrev Entry := Val

/-- Entry constructor when an argument is given: `this.#value = value`
(entry.mjs line 23, one-argument case). -/
def Entry.ofValue (value : Val) : Entry := value

/-- Entry constructor with no argument: `this.#value = Empty`. -/
def Entry.mkEmpty : Entry := Val.empty

/-- `is_empty() { return this.#value === Empty; }` -/
def Entry.is_empty (e : Entry) : Bool := decide (e = Val.empty)

/-- `is_not_empty() { return !this.is_empty(); }` -/
def Entry.is_not_empty (e : Entry) : Bool := !e.is_empty

/-- A column-header cell `{ text, span }`. -/
structure HCell where
  text : String
  span : Nat
deriving DecidableEq, Repr

/-- Expansion of one header row: a run of span `n` becomes `n` copies of the
text (`despan`, entry.mjs lines 384-396, inner loop). -/
def despanRow (chRow : List HCell) : List String :=
  (chRow.map (fun c => List.replicate c.span c.text)).flatten

/-- `despan(column_headers)`: expand every header row (entry.mjs 384-396). -/
def despan (column_headers : List (List HCell)) : List (List String) :=
  column_headers.map despanRow

/-- Run-length encoding loop of `respan` (entry.mjs 419-432): `cur` is
`current_value`, `span` the running count; on each label either extend the
current run or emit it and start a new one, emitting the last run at the end. -/
def runLength (cur : String) (span : Nat) : List String → List HCell
  | [] => [{ text := cur, span := span }]
  | v :: rest =>
    if v = cur then runLength cur (span + 1) rest
    else { text := cur, span := span } :: runLength v 1 rest

/-- One row of `respan`: an empty label row is skipped (`if (done) continue`,
entry.mjs line 416), otherwise the labels are run-length encoded starting from
the first label with span 1. -/
def respanRow : List String → Option (List HCell)
  | [] => none
  | v :: rest => some (runLength v 1 rest)

/-- `respan(column_headers)` (entry.mjs 399-437): run-length encode each label
row, dropping label rows that yield no labels. -/
def respan (rows : List (List String)) : List (List HCell) :=
  rows.filterMap respanRow

/-- Numeric ascending de-duplicating sort, modelling the JS idiom
`[...new Set(xs)].sort(numerically)` used by `Matrix.slice` and
`without_empty_rows_and_columns`. -/
def dedupSort (l : List Nat) : List Nat := List.insertionSort (· ≤ ·) l.dedup

/-- The sparse 2-D cell container (matrix.mjs): `#height`, `#width` and the
nested `#data` array of Entry. Width and height are stored fields, not derived
from the data (a 0 by 5 matrix has empty data but width 5). -/
@[ext]
structure Matrix where
  height : Nat
  width : Nat
  data : List (List Entry)
deriving DecidableEq, Repr

/-- Error raised by `Matrix.#boundcheck` (matrix.mjs 297-310); the
zero-dimensioned case and the index-outside-positive-dimensions case are
distinct constructors carrying the detail the JS error message carries. -/
inductive BoundErr where
  | zeroDim (msg : String)
  | outside (errors : List String)
deriving DecidableEq, Repr

/-- `#boundcheck(y, x, funcname)` (matrix.mjs 297-310): a zero-dimensioned
matrix always fails; otherwise each violated constraint contributes one
message, and any messages mean failure. -/
def Matrix.boundcheck (m : Matrix) (y x : Int) (funcname : String) : Option BoundErr :=
  if m.width = 0 ∨ m.height = 0 then
    some (BoundErr.zeroDim ("Matrix." ++ funcname ++ "(x (=" ++ toString x ++
      "), y (=" ++ toString y ++ ")): cannot access data, matrix is 0-dimensioned"))
  else
    let errors :=
      (if x < 0 then ["x must be non-negative"] else []) ++
      (if (m.width : Int) ≤ x then ["x must be < " ++ toString m.width] else []) ++
      (if y < 0 then ["y must be non-negative"] else []) ++
      (if (m.height : Int) ≤ y then ["y must be < " ++ toString m.height] else [])
    if 0 < errors.length then some (BoundErr.outside errors) else none

/-- Raw cell read `this.#data[y][x]`, total with defaults; every use in the
source is behind `boundcheck`, where the defaults are never reached on
well-formed data. -/
def Matrix.cell (m : Matrix) (y x : Nat) : Entry := (m.data.getD y []).getD x Val.empty

/-- `get(y, x)` (matrix.mjs 140): boundcheck, then return the Entry. -/
def Matrix.get (m : Matrix) (y x : Int) : Except BoundErr Entry :=
  match m.boundcheck y x "get" with
  | some e => Except.error e
  | none => Except.ok (m.cell y.toNat x.toNat)

/-- `set(y, x, value)` (matrix.mjs 139): boundcheck, then store
`new Entry(value)` at the coordinate. -/
def Matrix.set (m : Matrix) (y x : Int) (value : Val) : Except BoundErr Matrix :=
  match m.boundcheck y x "set" with
  | some e => Except.error e
  | none => Except.ok { m with
      data := m.data.set y.toNat ((m.data.getD y.toNat []).set x.toNat (Entry.ofValue value)) }

/-- `new Matrix(height, width)` with no opts (matrix.mjs 104-106): every cell a
fresh empty Entry. -/
def Matrix.new (height width : Nat) : Matrix :=
  ⟨height, width, List.replicate height (List.replicate width Entry.mkEmpty)⟩

/-- The `opts.fill` argument of the Matrix constructor: absent, a function of
(x, y), or a plain constant value. -/
inductive FillOpt where
  | absent
  | fn (f : Nat → Nat → Val)
  | const (v : Val)

/-- Matrix constructor with a fill option (matrix.mjs 91-118, non-`data`
branches). With `fill` present the code runs `this.set(y, x, fill(x, y))` for
every cell, so a constant (non-function) `fill` is called as a function, which
in JS throws `TypeError: fill is not a function` as soon as the first cell is
initialized, hence exactly when both dimensions are positive. -/
def Matrix.newWithFill (height width : Nat) (fill : FillOpt) : Except String Matrix :=
  match fill with
  | FillOpt.absent => Except.ok (Matrix.new height width)
  | FillOpt.fn f => Except.ok ⟨height, width,
      (List.range height).map (fun y => (List.range width).map (fun x => Entry.ofValue (f x y)))⟩
  | FillOpt.const _ =>
      if height ≠ 0 ∧ width ≠ 0 then Except.error "TypeError: fill is not a function"
      else Except.ok ⟨height, width, List.replicate height []⟩

/-- `as_array({empty_treated_as})` (matrix.mjs 154-159): extract values,
substituting `empty_treated_as` for the Empty sentinel. The JS default for the
option is `undefined`, i.e. `Val.undef`. -/
def Matrix.as_array (m : Matrix) (empty_treated_as : Val) : List (List Val) :=
  m.data.map (fun row => row.map (fun v => if v = Val.empty then empty_treated_as else v))

/-- Shape error of `set_raw_data` (matrix.mjs 183-185): offending row index,
expected width, actual width. -/
inductive DataErr where
  | shape (row expected actual : Nat)
deriving DecidableEq, Repr

/-- Scan for the first row whose length differs from `width`, returning its
index and its actual length (the loop of matrix.mjs 178-187). -/
def firstBadRow (width : Nat) : List (List Val) → Option (Nat × Nat)
  | [] => none
  | row :: rest =>
    if row.length ≠ width then some (0, row.length)
    else (firstBadRow width rest).map (fun p => (p.1 + 1, p.2))

/-- `set_raw_data(data)` (matrix.mjs 165-195): empty input gives the 0 by 0
matrix; otherwise every row must have the length of the first row, the first
offending row raising a shape error with its index and the expected and actual
widths; accepted data is wrapped cell-wise in `Entry`. -/
def set_raw_data (data : List (List Val)) : Except DataErr Matrix :=
  if data.length = 0 then Except.ok ⟨0, 0, []⟩
  else
    let width := (data.headD []).length
    match firstBadRow width data with
    | some p => Except.error (DataErr.shape p.1 width p.2)
    | none => Except.ok ⟨data.length, width, data.map (fun row => row.map Entry.ofValue)⟩

/-- `Matrix.from_data(data)` (matrix.mjs 120-134): delegates to
`set_raw_data`. -/
def Matrix.from_data (data : List (List Val)) : Except DataErr Matrix := set_raw_data data

/-- `entries()` (matrix.mjs 238-247): row-major list of coordinate-value pairs
of the non-empty cells. -/
def Matrix.entries (m : Matrix) : List ((Nat × Nat) × Val) :=
  ((List.range m.height).map (fun y => (List.range m.width).filterMap (fun x =>
    if (m.cell y x).is_not_empty then some ((y, x), m.cell y x) else none))).flatten

/-- `slice(rows, columns)` (matrix.mjs 250-264): de-dupe and numerically sort
both index lists, then copy the selected cells into a fresh matrix. The JS
per-cell copy goes through bounds-checked `get`, so out-of-range input indices
throw there; theorems about `slice` therefore carry in-bounds hypotheses. -/
def Matrix.slice (m : Matrix) (rows columns : List Nat) : Matrix :=
  let rs := dedupSort rows
  let cs := dedupSort columns
  ⟨rs.length, cs.length, rs.map (fun y => cs.map (fun x => m.cell y x))⟩

/-- Result record of `without_empty_rows_and_columns` (matrix.mjs 294):
`{ new_matrix, new_columns, new_rows }` with the maps as old-to-new
association lists in ascending old-index order (JS objects with integer-like
keys enumerate ascending). -/
structure WernResult where
  new_matrix : Matrix
  new_columns : List (Nat × Nat)
  new_rows : List (Nat × Nat)
deriving DecidableEq, Repr

/-- The local `rows` of `without_empty_rows_and_columns` (matrix.mjs 272):
sorted distinct row coordinates of the non-empty entries. -/
def Matrix.wernRows (m : Matrix) : List Nat :=
  dedupSort ((m.entries.map (fun e => e.1)).map (fun p => p.1))

/-- The local `columns` of `without_empty_rows_and_columns` (matrix.mjs 273):
sorted distinct column coordinates of the non-empty entries. -/
def Matrix.wernCols (m : Matrix) : List Nat :=
  dedupSort ((m.entries.map (fun e => e.1)).map (fun p => p.2))

/-- `without_empty_rows_and_columns()` (matrix.mjs 270-295): slice to the rows
and columns containing at least one non-empty entry, plus old-to-new index
maps. Both maps are assigned inside a loop nest over `rows` and `columns`, so
when either list is empty neither map receives any assignment. -/
def Matrix.without_empty_rows_and_columns (m : Matrix) : WernResult :=
  if m.wernRows.isEmpty ∨ m.wernCols.isEmpty then ⟨m.slice m.wernRows m.wernCols, [], []⟩
  else ⟨m.slice m.wernRows m.wernCols,
    m.wernCols.enum.map (fun p => (p.2, p.1)),
    m.wernRows.enum.map (fun p => (p.2, p.1))⟩

/-- Helper vocabulary for theorem statements: row `y` holds some non-empty
entry. -/
def Matrix.rowHasValue (m : Matrix) (y : Nat) : Bool :=
  (List.range m.width).any (fun x => (m.cell y x).is_not_empty)

/-- Helper vocabulary for theorem statements: column `x` holds some non-empty
entry. -/
def Matrix.colHasValue (m : Matrix) (x : Nat) : Bool :=
  (List.range m.height).any (fun y => (m.cell y x).is_not_empty)

/-- Helper: did an operation fail with an error? -/
def isError {ε α : Type} (e : Except ε α) : Bool :=
  match e with
  | Except.error _ => true
  | Except.ok _ => false

/-- Character-level split on a separator, matching JS `String.split(sep)` for
a one-character separator: empty fields are preserved, `""` splits to
`[""]`. -/
def splitOnChar (c : Char) : List Char → List (List Char)
  | [] => [[]]
  | a :: rest =>
    let r := splitOnChar c rest
    if a = c then [] :: r
    else (a :: r.headD []) :: r.tail

/-- JS `line.split(c)` for a one-character separator. -/
def jsSplit (c : Char) (s : String) : List String :=
  (splitOnChar c s.data).map String.mk

/-- `strip({characters, from_beginning, from_end})` (utils.mjs 434-473),
returning the string with the given characters removed from the chosen
ends. -/
def strip (characters : List Char) (from_beginning from_end : Bool) (s : String) : String :=
  let l1 := if from_beginning then s.data.dropWhile (fun c => c ∈ characters) else s.data
  let l2 := if from_end then (l1.reverse.dropWhile (fun c => c ∈ characters)).reverse else l1
  String.mk l2

/-- `strip_whitespace` (utils.mjs 475). -/
def strip_whitespace (s : String) : String := strip [' ', '\t', '\n'] true true s

/-- `strip_pipe_from_end` (entry.mjs 342): strips spaces and pipes from the
end only. -/
def strip_pipe_from_end (s : String) : String := strip [' ', '|'] false true s

/-- JS `String.prototype.trim()` over the whitespace characters that occur in
this ASCII table format. -/
def jsTrim (s : String) : String := strip [' ', '\t', '\n', '\r'] true true s

/-- `find_all_indexes(character)` (utils.mjs 260-265), also used with `null`
over aligned pipe-position arrays, hence generic in the element type. -/
def find_all_indexes {α : Type} [DecidableEq α] (a : α) (l : List α) : List Nat :=
  (l.enum.filter (fun p => decide (p.2 = a))).map (fun p => p.1)

/-- Count of leading space characters of a line (dedent loop, utils.mjs
246-249). -/
def countLeadingSpaces (l : List Char) : Nat :=
  (l.takeWhile (fun c => c == ' ')).length

/-- `dedent(str)` (utils.mjs 239-253): remove the common leading-space count
of the non-blank lines from every line. A `none` minimum models the JS
`Infinity` start value, only kept when every line is blank, where
`line.slice(Infinity)` empties each line. -/
def dedent (s : String) : String :=
  let lines := jsSplit '\n' s
  let minIndent : Option Nat := lines.foldl (fun acc line =>
    if jsTrim line = "" then acc
    else match acc with
      | none => some (countLeadingSpaces line.data)
      | some mi => some (min mi (countLeadingSpaces line.data))) none
  match minIndent with
  | none => String.intercalate "\n" (lines.map (fun _ => ""))
  | some mi => String.intercalate "\n" (lines.map (fun line => String.mk (line.data.drop mi)))

/-- `align_columns(arrays)` (utils.mjs 282-304): pool all pipe positions,
de-dupe, sort ascending, then expand every array to that common domain with
`none` standing for the JS `null` placeholder. -/
def align_columns (arrays : List (List Nat)) : List (List (Option Nat)) :=
  let numbers := dedupSort arrays.flatten
  arrays.map (fun arr => numbers.map (fun n => if n ∈ arr then some n else none))

/-- `max_or(iterable, value)` (utils.mjs 123-126) at the Nat lists it is used
on: the maximum element, or `value` for an empty list. -/
def max_or (l : List Nat) (value : Nat) : Nat :=
  if l.isEmpty then value else l.foldl Nat.max 0

/-- `out_empty_lines` (entry.mjs 343): keep lines with non-whitespace
content. -/
def out_empty_lines (line : String) : Bool := 0 < (strip_whitespace line).length

/-- `lengths_1_and_others` (entry.mjs 344): group key 0 for a one-pipe line,
1 otherwise (zero pipes also lands in group 1). -/
def lengths_1_and_others {α : Type} (array : List α) : Nat :=
  if array.length = 1 then 0 else 1

/-- Functional form of the JS in-place update `arr[i] = f(arr[i])`; an index
past the end leaves the list unchanged. -/
def listModify {α : Type} : List α → Nat → (α → α) → List α
  | [], _, _ => []
  | a :: l, 0, f => f a :: l
  | a :: l, n + 1, f => a :: listModify l n f

/-- Span-correction loop of the parser (entry.mjs 369-376): every `null` in
the aligned pipe positions increments the span of the preceding real header
cell, at index `null_idx - num_nulls_before - 1` (0 for a leading null). The
JS subtraction can go negative only on inputs where the JS code itself would
crash on an undefined cell; Nat subtraction truncates there instead. -/
def spanAdjust (pipe_indexes : List (Option Nat)) (ch_row : List HCell) : List HCell :=
  let null_indexes := find_all_indexes (none : Option Nat) pipe_indexes
  null_indexes.enum.foldl (fun row p =>
    let adjusted_index := if p.2 = 0 then 0 else p.2 - p.1 - 1
    listModify row adjusted_index (fun c => { c with span := c.span + 1 })) ch_row

/-- `parse_tableformat_string(fmt)` (entry.mjs 346-379): dedent, drop blank
lines, group the per-line pipe positions by pipe count (one pipe means a
row-header line), align the column-header pipe positions, read the row
headers from the tail lines and the column headers from the head lines, then
correct the spans from the alignment placeholders. -/
def parse_tableformat_string (fmt : String) : List String × List (List HCell) :=
  let lines := (jsSplit '\n' (dedent fmt)).filter out_empty_lines
  let indexLists := lines.map (fun line => find_all_indexes '|' line.data)
  let column_pipe_indexes0 := indexLists.filter (fun a => lengths_1_and_others a == 1)
  let column_pipe_indexes := align_columns column_pipe_indexes0
  let row_headers := ((lines.drop column_pipe_indexes.length).map
      strip_pipe_from_end).map strip_whitespace
  let column_headers0 := (lines.take column_pipe_indexes.length).map (fun line =>
    (((jsSplit '|' line).map jsTrim).filter
        (fun s => !(s == "-") && !(s == ""))).map
      (fun s => ({ text := s, span := 1 } : HCell)))
  let column_headers := (column_pipe_indexes.zip column_headers0).map
    (fun p => spanAdjust p.1 p.2)
  (row_headers, column_headers)

/-- A Table (entry.mjs 91-97): caption, data matrix, row headers, column
header rows. -/
structure Table where
  caption : Option String
  data : Matrix
  row_headers : List String
  column_headers : List (List HCell)
deriving DecidableEq, Repr

/-- `Table.from_format(format, {caption})` (entry.mjs 105-117): parse, size
the matrix as width = max header-row cell count (default 1) and height =
row-header count (at least 1), with an all-empty data matrix. -/
def Table.from_format (format : String) (caption : Option String) : Table :=
  let parsed := parse_tableformat_string format
  let width := max_or (parsed.2.map List.length) 1
  let height := if parsed.1.length = 0 then 1 else parsed.1.length
  { caption := caption, data := Matrix.new height width,
    row_headers := parsed.1, column_headers := parsed.2 }

/-- `Table.slice(rows, columns)` (entry.mjs 127-151): slice the matrix, keep
the row headers whose index is in `rows`, and rebuild the column headers by
despanning, keeping the despanned labels whose index is in `columns`, and
respanning. -/
def Table.slice (t : Table) (rows columns : List Nat) : Table :=
  let new_matrix := t.data.slice rows columns
  let new_row_headers := (t.row_headers.enum.filter
      (fun p => decide (p.1 ∈ rows))).map (fun p => p.2)
  let new_column_headers := (despan t.column_headers).map (fun ch_row =>
    (ch_row.enum.filter (fun p => decide (p.1 ∈ columns))).map (fun p => p.2))
  { caption := t.caption, data := new_matrix, row_headers := new_row_headers,
    column_headers := respan new_column_headers }

/-- The string sort JS applies to `Object.keys(new_rows)` (entry.mjs 290):
plain `sort()` compares the keys lexicographically as strings. -/
def jsKeySort (l : List String) : List String :=
  List.insertionSort (fun a b => ¬(b < a)) l

/-- `Table.without_empty_rows_and_columns()` (entry.mjs 281-337): prune the
matrix; rebuild the row headers from the row-map keys sorted as strings;
rebuild each column-header row by pushing, for every surviving column in
ascending old-index order, the despanned label at that old index with span 1.
`span_adjustments` stays 0 throughout because the span-tracking assignments
are commented out in the source, so the lookup index is the old column index
itself. -/
def Table.without_empty_rows_and_columns (t : Table) : Table :=
  let r := t.data.without_empty_rows_and_columns
  let new_row_headers :=
    if 0 < t.row_headers.length then
      (jsKeySort (r.new_rows.map (fun p => toString p.1))).map
        (fun s => t.row_headers.getD ((s.toNat?).getD 0) "")
    else []
  let despanned := despan t.column_headers
  let new_column_headers := (List.range t.column_headers.length).map (fun i =>
    r.new_columns.map (fun p =>
      ({ text := (despanned.getD i []).getD p.1 "", span := 1 } : HCell)))
  { caption := t.caption, data := r.new_matrix, row_headers := new_row_headers,
    column_headers := new_column_headers }

/-- The four-line parser scenario input of the spec: two column-header lines
indented by four spaces, then two row-header lines. -/
def scenarioInput : String :=
  "    | A | B |     C\n    | a | b | c1 | c2 | c3\n1 |\n2 |"

/-- Concrete one-row, two-column table used by witnesses and
counterexamples. -/
def tAB : Table :=
  { caption := none, data := Matrix.new 1 2, row_headers := [],
    column_headers := [[{ text := "a", span := 1 }, { text := "b", span := 1 }]] }

/-- Concrete table with one spanned header cell over a half-empty 1 by 2
matrix, used by the C3 witness. -/
def tSpan : Table :=
  { caption := none, data := ⟨1, 2, [[Val.num 5, Val.empty]]⟩, row_headers := [],
    column_headers := [[{ text := "A", span := 2 }]] }

/-- Concrete table with no column-header rows, as produced by
`Table.from_format` on a row-headers-only format, used by the C10
counterexample. -/
def tNoHeaders : Table :=
  { caption := none, data := Matrix.new 1 1, row_headers := ["1"],
    column_headers := [] }

set_option maxRecDepth 10000

lemma despanRow_length (row : List HCell) :
    (despanRow row).length = (row.map HCell.span).sum := by
  simp [despanRow, List.length_flatten, Function.comp_def]

lemma runLength_span_sum (cur : String) (s : Nat) (l : List String) :
    ((runLength cur s l).map HCell.span).sum = s + l.length := by
  induction l generalizing cur s with
  | nil => simp [runLength]
  | cons v rest ih =>
    by_cases h : v = cur
    · simp only [runLength, if_pos h, ih, List.length_cons]
      omega
    · simp only [runLength, if_neg h, List.map_cons, List.sum_cons, ih, List.length_cons]
      omega

lemma runLength_replicate (t : String) (s n : Nat) (l : List String) :
    runLength t s (List.replicate n t ++ l) = runLength t (s + n) l := by
  induction n generalizing s with
  | zero => simp
  | succ n ih =>
    rw [List.replicate_succ, List.cons_append]
    show (if t = t then runLength t (s + 1) (List.replicate n t ++ l)
      else { text := t, span := s } :: runLength t 1 (List.replicate n t ++ l)) = _
    rw [if_pos rfl, ih, show s + 1 + n = s + (n + 1) by omega]

lemma runLength_despanRow (t : String) (s : Nat) (cells : List HCell)
    (hsp : ∀ c ∈ cells, 1 ≤ c.span)
    (hch : List.Chain' (fun a b : HCell => a.text ≠ b.text)
      ({ text := t, span := s } :: cells)) :
    runLength t s (despanRow cells) = { text := t, span := s } :: cells := by
  induction cells generalizing t s with
  | nil => simp [despanRow, runLength]
  | cons c cs ih =>
    obtain ⟨ct, csp⟩ := c
    have h1 : 1 ≤ csp := hsp ⟨ct, csp⟩ (by simp)
    obtain ⟨k, hk⟩ : ∃ k, csp = k + 1 := ⟨csp - 1, by omega⟩
    subst hk
    have hne : ct ≠ t := by
      have := (List.chain'_cons.mp hch).1
      simpa using fun h => this h.symm
    have hch' : List.Chain' (fun a b : HCell => a.text ≠ b.text)
        ({ text := ct, span := k + 1 } :: cs) := (List.chain'_cons.mp hch).2
    have hsp' : ∀ c ∈ cs, 1 ≤ c.span := fun c hc => hsp c (by simp [hc])
    have hrec := ih ct (k + 1) hsp' hch'
    show runLength t s
        (List.replicate (k + 1) ct ++ despanRow cs) = _
    rw [List.replicate_succ, List.cons_append]
    show (if ct = t then runLength t (s + 1) (List.replicate k ct ++ despanRow cs)
      else { text := t, span := s } :: runLength ct 1 (List.replicate k ct ++ despanRow cs)) = _
    rw [if_neg hne, runLength_replicate]
    rw [show 1 + k = k + 1 by omega, hrec]

lemma respanRow_despanRow (cells : List HCell) (hne : cells ≠ [])
    (hsp : ∀ c ∈ cells, 1 ≤ c.span)
    (hch : List.Chain' (fun a b : HCell => a.text ≠ b.text) cells) :
    respanRow (despanRow cells) = some cells := by
  match cells, hne with
  | c :: cs, _ =>
    obtain ⟨ct, csp⟩ := c
    have h1 : 1 ≤ csp := hsp ⟨ct, csp⟩ (by simp)
    obtain ⟨k, hk⟩ : ∃ k, csp = k + 1 := ⟨csp - 1, by omega⟩
    subst hk
    have hsp' : ∀ c ∈ cs, 1 ≤ c.span := fun c hc => hsp c (by simp [hc])
    show respanRow (List.replicate (k + 1) ct ++ despanRow cs) = _
    rw [List.replicate_succ, List.cons_append]
    show some (runLength ct 1 (List.replicate k ct ++ despanRow cs)) = _
    rw [runLength_replicate, show 1 + k = k + 1 by omega,
      runLength_despanRow ct (k + 1) cs hsp' hch]

lemma respan_despan (h : List (List HCell))
    (hsp : ∀ row ∈ h, ∀ c ∈ row, 1 ≤ c.span)
    (hne : ∀ row ∈ h, row ≠ [])
    (hch : ∀ row ∈ h, List.Chain' (fun a b : HCell => a.text ≠ b.text) row) :
    respan (despan h) = h := by
  induction h with
  | nil => rfl
  | cons row rows ih =>
    have hrow := respanRow_despanRow row (hne row (by simp)) (hsp row (by simp))
      (hch row (by simp))
    show List.filterMap respanRow (despanRow row :: List.map despanRow rows) = _
    rw [List.filterMap_cons, hrow]
    have := ih (fun r hr => hsp r (by simp [hr])) (fun r hr => hne r (by simp [hr]))
      (fun r hr => hch r (by simp [hr]))
    simpa [respan, despan] using this

lemma respan_span_sums (lls : List (List String)) (hne : ∀ row ∈ lls, row ≠ []) :
    List.Forall₂ (fun out inp => ((out.map HCell.span).sum : Nat) = inp.length)
      (respan lls) lls := by
  induction lls with
  | nil => exact List.Forall₂.nil
  | cons row rest ih =>
    match row, hne row (by simp) with
    | v :: vs, _ =>
      show List.Forall₂ _ (List.filterMap respanRow ((v :: vs) :: rest)) _
      rw [List.filterMap_cons]
      show List.Forall₂ _ (runLength v 1 vs :: List.filterMap respanRow rest) _
      exact List.Forall₂.cons (by rw [runLength_span_sum, List.length_cons]; omega)
        (ih (fun r hr => hne r (by simp [hr])))

lemma despan_lengths (h : List (List HCell)) :
    List.Forall₂ (fun d r => (d.length : Nat) = (r.map HCell.span).sum) (despan h) h := by
  rw [despan, List.forall₂_map_left_iff]
  exact (List.forall₂_same).mpr (fun r _ => despanRow_length r)

lemma mem_dedupSort {l : List Nat} {a : Nat} : a ∈ dedupSort l ↔ a ∈ l := by
  rw [dedupSort, (List.perm_insertionSort _ _).mem_iff, List.mem_dedup]

lemma dedupSort_sorted (l : List Nat) : List.Sorted (· < ·) (dedupSort l) := by
  have hs : List.Sorted (· ≤ ·) (dedupSort l) := List.sorted_insertionSort _ _
  have hn : (dedupSort l).Nodup :=
    ((List.perm_insertionSort _ _).nodup_iff).mpr (List.nodup_dedup l)
  exact (hs.and hn).imp (fun h => lt_of_le_of_ne h.1 h.2)

lemma dedupSort_eq_of_sorted {l r : List Nat} (hr : List.Sorted (· < ·) r)
    (hm : ∀ a, a ∈ l ↔ a ∈ r) : dedupSort l = r := by
  have h1 := dedupSort_sorted l
  have hperm : (dedupSort l).Perm r :=
    (List.perm_ext_iff_of_nodup h1.nodup hr.nodup).mpr
      (fun a => (mem_dedupSort).trans (hm a))
  exact List.eq_of_perm_of_sorted hperm h1 hr

lemma dedupSort_range (n : Nat) : dedupSort (List.range n) = List.range n :=
  dedupSort_eq_of_sorted (List.sorted_lt_range n) (fun _ => Iff.rfl)

lemma dedupSort_filter_range (n : Nat) (p : Nat → Bool) :
    dedupSort ((List.range n).filter p) = (List.range n).filter p :=
  dedupSort_eq_of_sorted ((List.sorted_lt_range n).filter p) (fun _ => Iff.rfl)

lemma entries_mem_iff (m : Matrix) (e : (Nat × Nat) × Val) :
    e ∈ m.entries ↔ e.1.1 < m.height ∧ e.1.2 < m.width ∧
      (m.cell e.1.1 e.1.2).is_not_empty = true ∧ e.2 = m.cell e.1.1 e.1.2 := by
  obtain ⟨⟨y, x⟩, v⟩ := e
  simp only [Matrix.entries, List.mem_flatten, List.mem_map]
  constructor
  · rintro ⟨l, ⟨y2, hy2, rfl⟩, hmem⟩
    rw [List.mem_filterMap] at hmem
    obtain ⟨x2, hx2, hsome⟩ := hmem
    by_cases hc : (m.cell y2 x2).is_not_empty = true
    · rw [if_pos hc] at hsome
      have h1 := Prod.mk.inj (Option.some.inj hsome)
      obtain ⟨rfl, rfl⟩ := Prod.mk.inj h1.1
      exact ⟨List.mem_range.mp hy2, List.mem_range.mp hx2, hc, h1.2.symm⟩
    · rw [if_neg hc] at hsome
      exact absurd hsome (by simp)
  · rintro ⟨hy, hx, hne, rfl⟩
    refine ⟨_, ⟨y, List.mem_range.mpr hy, rfl⟩, ?_⟩
    rw [List.mem_filterMap]
    exact ⟨x, List.mem_range.mpr hx, by rw [if_pos hne]⟩

lemma mem_entries_rows (m : Matrix) (y : Nat) :
    y ∈ (m.entries.map (fun e => e.1)).map (fun p => p.1) ↔
      y < m.height ∧ m.rowHasValue y = true := by
  rw [List.map_map]
  simp only [List.mem_map, Function.comp]
  constructor
  · rintro ⟨e, he, rfl⟩
    have h := (entries_mem_iff m e).mp he
    refine ⟨h.1, ?_⟩
    rw [Matrix.rowHasValue, List.any_eq_true]
    exact ⟨e.1.2, List.mem_range.mpr h.2.1, h.2.2.1⟩
  · rintro ⟨hy, hrow⟩
    rw [Matrix.rowHasValue, List.any_eq_true] at hrow
    obtain ⟨x, hx, hne⟩ := hrow
    exact ⟨((y, x), m.cell y x),
      (entries_mem_iff m _).mpr ⟨hy, List.mem_range.mp hx, hne, rfl⟩, rfl⟩

lemma mem_entries_cols (m : Matrix) (x : Nat) :
    x ∈ (m.entries.map (fun e => e.1)).map (fun p => p.2) ↔
      x < m.width ∧ m.colHasValue x = true := by
  rw [List.map_map]
  simp only [List.mem_map, Function.comp]
  constructor
  · rintro ⟨e, he, rfl⟩
    have h := (entries_mem_iff m e).mp he
    refine ⟨h.2.1, ?_⟩
    rw [Matrix.colHasValue, List.any_eq_true]
    exact ⟨e.1.1, List.mem_range.mpr h.1, h.2.2.1⟩
  · rintro ⟨hx, hcol⟩
    rw [Matrix.colHasValue, List.any_eq_true] at hcol
    obtain ⟨y, hy, hne⟩ := hcol
    exact ⟨((y, x), m.cell y x),
      (entries_mem_iff m _).mpr ⟨List.mem_range.mp hy, hx, hne, rfl⟩, rfl⟩

lemma wernRows_eq (m : Matrix) :
    m.wernRows = (List.range m.height).filter m.rowHasValue :=
  dedupSort_eq_of_sorted ((List.sorted_lt_range m.height).filter _)
    (fun a => by rw [mem_entries_rows, List.mem_filter, List.mem_range])

lemma wernCols_eq (m : Matrix) :
    m.wernCols = (List.range m.width).filter m.colHasValue :=
  dedupSort_eq_of_sorted ((List.sorted_lt_range m.width).filter _)
    (fun a => by rw [mem_entries_cols, List.mem_filter, List.mem_range])

lemma wern_new_matrix (m : Matrix) :
    (m.without_empty_rows_and_columns).new_matrix = m.slice m.wernRows m.wernCols := by
  rw [Matrix.without_empty_rows_and_columns]
  split <;> rfl

lemma getD_map_of_lt {α β : Type} (f : α → β) (l : List α) (i : Nat) (d : β)
    (hi : i < l.length) : (l.map f).getD i d = f l[i] := by
  rw [List.getD_eq_getElem?_getD, List.getElem?_eq_getElem (by simpa using hi)]
  simp

lemma slice_height (m : Matrix) (rows cols : List Nat) :
    (m.slice rows cols).height = (dedupSort rows).length := rfl

lemma slice_width (m : Matrix) (rows cols : List Nat) :
    (m.slice rows cols).width = (dedupSort cols).length := rfl

lemma slice_cell (m : Matrix) (rows cols : List Nat) (i j : Nat)
    (hi : i < (dedupSort rows).length) (hj : j < (dedupSort cols).length) :
    (m.slice rows cols).cell i j = m.cell ((dedupSort rows)[i]) ((dedupSort cols)[j]) := by
  show (((dedupSort rows).map
      (fun y => (dedupSort cols).map (fun x => m.cell y x))).getD i []).getD j Val.empty = _
  rw [getD_map_of_lt _ _ _ _ hi, getD_map_of_lt _ _ _ _ hj]

lemma dedupSort_wernRows (m : Matrix) : dedupSort m.wernRows = m.wernRows := by
  rw [wernRows_eq, dedupSort_filter_range]

lemma dedupSort_wernCols (m : Matrix) : dedupSort m.wernCols = m.wernCols := by
  rw [wernCols_eq, dedupSort_filter_range]

lemma mem_wernRows (m : Matrix) {y : Nat} :
    y ∈ m.wernRows ↔ y < m.height ∧ m.rowHasValue y = true := by
  rw [wernRows_eq, List.mem_filter, List.mem_range]

lemma mem_wernCols (m : Matrix) {x : Nat} :
    x ∈ m.wernCols ↔ x < m.width ∧ m.colHasValue x = true := by
  rw [wernCols_eq, List.mem_filter, List.mem_range]

lemma pruned_height (m : Matrix) :
    (m.slice m.wernRows m.wernCols).height = m.wernRows.length := by
  rw [slice_height, dedupSort_wernRows]

lemma pruned_width (m : Matrix) :
    (m.slice m.wernRows m.wernCols).width = m.wernCols.length := by
  rw [slice_width, dedupSort_wernCols]

lemma pruned_cell (m : Matrix) (i j : Nat)
    (hi : i < m.wernRows.length) (hj : j < m.wernCols.length) :
    (m.slice m.wernRows m.wernCols).cell i j = m.cell (m.wernRows[i]) (m.wernCols[j]) := by
  show (((dedupSort m.wernRows).map
      (fun y => (dedupSort m.wernCols).map (fun x => m.cell y x))).getD i []).getD j Val.empty = _
  rw [dedupSort_wernRows, dedupSort_wernCols, getD_map_of_lt _ _ _ _ hi,
    getD_map_of_lt _ _ _ _ hj]

lemma pruned_rowHasValue (m : Matrix) (i : Nat) (hi : i < m.wernRows.length) :
    (m.slice m.wernRows m.wernCols).rowHasValue i = true := by
  have hymem : m.wernRows[i] ∈ m.wernRows := List.getElem_mem hi
  obtain ⟨hy, hrow⟩ := (mem_wernRows m).mp hymem
  rw [Matrix.rowHasValue, List.any_eq_true] at hrow
  obtain ⟨x, hxr, hne⟩ := hrow
  have hxmem : x ∈ m.wernCols := (mem_wernCols m).mpr ⟨List.mem_range.mp hxr, by
    rw [Matrix.colHasValue, List.any_eq_true]
    exact ⟨m.wernRows[i], List.mem_range.mpr hy, hne⟩⟩
  obtain ⟨j, hj, hjx⟩ := List.mem_iff_getElem.mp hxmem
  rw [Matrix.rowHasValue, List.any_eq_true]
  refine ⟨j, List.mem_range.mpr (by rw [pruned_width]; exact hj), ?_⟩
  rw [pruned_cell m i j hi hj, hjx]
  exact hne

lemma pruned_colHasValue (m : Matrix) (j : Nat) (hj : j < m.wernCols.length) :
    (m.slice m.wernRows m.wernCols).colHasValue j = true := by
  have hxmem : m.wernCols[j] ∈ m.wernCols := List.getElem_mem hj
  obtain ⟨hx, hcol⟩ := (mem_wernCols m).mp hxmem
  rw [Matrix.colHasValue, List.any_eq_true] at hcol
  obtain ⟨y, hyr, hne⟩ := hcol
  have hymem : y ∈ m.wernRows := (mem_wernRows m).mpr ⟨List.mem_range.mp hyr, by
    rw [Matrix.rowHasValue, List.any_eq_true]
    exact ⟨m.wernCols[j], List.mem_range.mpr hx, hne⟩⟩
  obtain ⟨i, hi, hiy⟩ := List.mem_iff_getElem.mp hymem
  rw [Matrix.colHasValue, List.any_eq_true]
  refine ⟨i, List.mem_range.mpr (by rw [pruned_height]; exact hi), ?_⟩
  rw [pruned_cell m i j hi hj, hiy]
  exact hne

lemma wernRows_pruned (m : Matrix) :
    (m.slice m.wernRows m.wernCols).wernRows =
      List.range (m.slice m.wernRows m.wernCols).height := by
  rw [wernRows_eq]
  apply List.filter_eq_self.mpr
  intro i hi
  exact pruned_rowHasValue m i (by rw [← pruned_height]; exact List.mem_range.mp hi)

lemma wernCols_pruned (m : Matrix) :
    (m.slice m.wernRows m.wernCols).wernCols =
      List.range (m.slice m.wernRows m.wernCols).width := by
  rw [wernCols_eq]
  apply List.filter_eq_self.mpr
  intro j hj
  exact pruned_colHasValue m j (by rw [← pruned_width]; exact List.mem_range.mp hj)

lemma slice_full_range (m : Matrix) (R C : List Nat) :
    (m.slice R C).slice (List.range (m.slice R C).height) (List.range (m.slice R C).width)
      = m.slice R C := by
  apply Matrix.ext
  · show (dedupSort (List.range (dedupSort R).length)).length = (dedupSort R).length
    rw [dedupSort_range, List.length_range]
  · show (dedupSort (List.range (dedupSort C).length)).length = (dedupSort C).length
    rw [dedupSort_range, List.length_range]
  · show (dedupSort (List.range (dedupSort R).length)).map (fun i =>
        (dedupSort (List.range (dedupSort C).length)).map (fun j => (m.slice R C).cell i j))
      = (dedupSort R).map (fun y => (dedupSort C).map (fun x => m.cell y x))
    rw [dedupSort_range, dedupSort_range]
    apply List.ext_getElem
    · simp
    · intro i h1 h2
      rw [List.getElem_map, List.getElem_map, List.getElem_range]
      apply List.ext_getElem
      · simp
      · intro j h3 h4
        rw [List.getElem_map, List.getElem_map, List.getElem_range]
        exact slice_cell m R C i j (by simpa using h2) (by simpa using h4)

lemma boundcheck_none_iff (m : Matrix) (y x : Int) (f : String) :
    m.boundcheck y x f = none ↔
      (¬(m.width = 0 ∨ m.height = 0) ∧ ¬(x < 0) ∧ ¬((m.width : Int) ≤ x) ∧
        ¬(y < 0) ∧ ¬((m.height : Int) ≤ y)) := by
  rw [Matrix.boundcheck]
  by_cases h0 : m.width = 0 ∨ m.height = 0
  · simp [h0]
  · simp only [if_neg h0]
    by_cases hx1 : x < 0 <;> by_cases hx2 : (m.width : Int) ≤ x <;>
      by_cases hy1 : y < 0 <;> by_cases hy2 : (m.height : Int) ≤ y <;>
      simp [hx1, hx2, hy1, hy2, h0]

lemma boundcheck_zeroDim_iff (m : Matrix) (y x : Int) (f : String) :
    (∃ s, m.boundcheck y x f = some (BoundErr.zeroDim s)) ↔
      (m.width = 0 ∨ m.height = 0) := by
  rw [Matrix.boundcheck]
  by_cases h0 : m.width = 0 ∨ m.height = 0
  · simp [h0]
  · simp only [if_neg h0]
    by_cases hx1 : x < 0 <;> by_cases hx2 : (m.width : Int) ≤ x <;>
      by_cases hy1 : y < 0 <;> by_cases hy2 : (m.height : Int) ≤ y <;>
      simp [hx1, hx2, hy1, hy2, h0]

lemma boundcheck_outside_iff (m : Matrix) (y x : Int) (f : String) :
    (∃ errs, m.boundcheck y x f = some (BoundErr.outside errs)) ↔
      (¬(m.width = 0 ∨ m.height = 0) ∧
        (x < 0 ∨ (m.width : Int) ≤ x ∨ y < 0 ∨ (m.height : Int) ≤ y)) := by
  rw [Matrix.boundcheck]
  by_cases h0 : m.width = 0 ∨ m.height = 0
  · simp [h0]
  · simp only [if_neg h0]
    by_cases hx1 : x < 0 <;> by_cases hx2 : (m.width : Int) ≤ x <;>
      by_cases hy1 : y < 0 <;> by_cases hy2 : (m.height : Int) ≤ y <;>
      simp [hx1, hx2, hy1, hy2, h0]

lemma isError_get_iff (m : Matrix) (y x : Int) :
    isError (m.get y x) = true ↔ ¬(m.boundcheck y x "get" = none) := by
  rw [Matrix.get]
  cases h : m.boundcheck y x "get" <;> simp [isError, h]

lemma isError_set_iff (m : Matrix) (y x : Int) (v : Val) :
    isError (m.set y x v) = true ↔ ¬(m.boundcheck y x "set" = none) := by
  rw [Matrix.set]
  cases h : m.boundcheck y x "set" <;> simp [isError, h]

/-- C6: `without_empty_rows_and_columns` is idempotent — applied to its own
result matrix it returns that matrix unchanged (same shape and cell data) —
and it never increases either dimension. -/
theorem C6_prune_idempotent (m : Matrix) :
    ((m.without_empty_rows_and_columns).new_matrix.without_empty_rows_and_columns).new_matrix
        = (m.without_empty_rows_and_columns).new_matrix ∧
    (m.without_empty_rows_and_columns).new_matrix.height ≤ m.height ∧
    (m.without_empty_rows_and_columns).new_matrix.width ≤ m.width := by
  rw [wern_new_matrix m, wern_new_matrix (m.slice m.wernRows m.wernCols)]
  refine ⟨?_, ?_, ?_⟩
  · rw [wernRows_pruned, wernCols_pruned]
    exact slice_full_range m m.wernRows m.wernCols
  · rw [pruned_height, wernRows_eq]
    calc ((List.range m.height).filter m.rowHasValue).length
        ≤ (List.range m.height).length := List.length_filter_le _ _
      _ = m.height := List.length_range _
  · rw [pruned_width, wernCols_eq]
    calc ((List.range m.width).filter m.colHasValue).length
        ≤ (List.range m.width).length := List.length_filter_le _ _
      _ = m.width := List.length_range _

/-- C8: `get` and `set` fail exactly when y or x is negative, y ≥ height,
x ≥ width, or the matrix is zero-dimensioned; the error detail distinguishes
the zero-dimensioned case from the index-outside-positive-dimensions case;
and a successful `get` reads exactly the addressed cell, so coordinates are
never clamped or silently ignored. -/
theorem C8_bounds_checked (m : Matrix) (y x : Int) (v : Val) :
    (isError (m.get y x) = true ↔
      (y < 0 ∨ x < 0 ∨ (m.height : Int) ≤ y ∨ (m.width : Int) ≤ x ∨
        m.width = 0 ∨ m.height = 0)) ∧
    isError (m.set y x v) = isError (m.get y x) ∧
    ((∃ s, m.boundcheck y x "get" = some (BoundErr.zeroDim s)) ↔
      (m.width = 0 ∨ m.height = 0)) ∧
    ((∃ errs, m.boundcheck y x "get" = some (BoundErr.outside errs)) ↔
      (m.width ≠ 0 ∧ m.height ≠ 0 ∧
        (y < 0 ∨ x < 0 ∨ (m.height : Int) ≤ y ∨ (m.width : Int) ≤ x))) ∧
    (m.get y x = Except.ok (m.cell y.toNat x.toNat) ∨ isError (m.get y x) = true) := by
  refine ⟨?_, ?_, ?_, ?_, ?_⟩
  · rw [isError_get_iff, boundcheck_none_iff]
    constructor <;> intro h <;> tauto
  · have h1 := isError_set_iff m y x v
    have h2 := isError_get_iff m y x
    have h3 := (boundcheck_none_iff m y x "set").trans (boundcheck_none_iff m y x "get").symm
    cases hs : isError (m.set y x v) <;> cases hg : isError (m.get y x) <;> try rfl
    · rw [hg] at h2
      rw [hs] at h1
      simp only [Bool.false_eq_true, false_iff, not_not] at h1
      exact absurd (h3.mp h1) (h2.mp rfl)
    · rw [hg] at h2
      rw [hs] at h1
      simp only [Bool.false_eq_true, false_iff, not_not] at h2
      exact absurd (h3.mpr h2) (h1.mp rfl)
  · exact boundcheck_zeroDim_iff m y x "get"
  · rw [boundcheck_outside_iff]
    constructor <;> intro h <;> tauto
  · rw [Matrix.get]
    cases h : m.boundcheck y x "get"
    · exact Or.inl rfl
    · exact Or.inr (by simp [isError])

lemma firstBadRow_none_iff (width : Nat) (data : List (List Val)) :
    firstBadRow width data = none ↔ ∀ row ∈ data, row.length = width := by
  induction data with
  | nil => simp [firstBadRow]
  | cons row rest ih =>
    by_cases h : row.length ≠ width
    · simp only [firstBadRow, if_pos h]
      constructor
      · intro hc
        exact absurd hc (by simp)
      · intro hall
        exact absurd (hall row (by simp)) h
    · push_neg at h
      simp only [firstBadRow, if_neg (by omega : ¬row.length ≠ width)]
      rw [Option.map_eq_none']
      constructor
      · intro hc r hr
        rcases List.mem_cons.mp hr with h1 | h1
        · subst h1; exact h
        · exact (ih.mp hc) r h1
      · intro hall
        exact ih.mpr (fun r hr => hall r (by simp [hr]))

lemma firstBadRow_eq_some (width : Nat) (data : List (List Val)) (j : Nat)
    (hj : j < data.length) (hbad : (data.getD j []).length ≠ width)
    (hok : ∀ k, k < j → (data.getD k []).length = width) :
    firstBadRow width data = some (j, (data.getD j []).length) := by
  induction data generalizing j with
  | nil => simp at hj
  | cons row rest ih =>
    cases j with
    | zero =>
      rw [List.getD_cons_zero] at hbad ⊢
      rw [firstBadRow, if_pos hbad]
    | succ j =>
      have h0 : row.length = width := by
        have := hok 0 (Nat.succ_pos j)
        rwa [List.getD_cons_zero] at this
      rw [List.getD_cons_succ] at hbad ⊢
      rw [firstBadRow, if_neg (by omega : ¬row.length ≠ width)]
      rw [ih j (by simpa using hj) hbad (fun k hk => by
        have := hok (k + 1) (by omega)
        rwa [List.getD_cons_succ] at this)]
      rfl

/-- C7 (amended): for rectangular raw data containing no occurrence of the
Empty sentinel value, `from_data` then `as_array` is the identity; for
non-rectangular data, `from_data` fails with a shape error carrying the first
offending row index together with the expected and actual widths. -/
theorem C7_from_data_amended (R : List (List Val)) :
    ((∀ row ∈ R, row.length = (R.headD []).length) →
      (∀ row ∈ R, Val.empty ∉ row) →
      Matrix.from_data R =
          Except.ok ⟨R.length, (R.headD []).length,
            R.map (fun row => row.map Entry.ofValue)⟩ ∧
        (Matrix.mk R.length (R.headD []).length
            (R.map (fun row => row.map Entry.ofValue))).as_array Val.undef = R) ∧
    (∀ j, j < R.length → (R.getD j []).length ≠ (R.headD []).length →
      (∀ k, k < j → (R.getD k []).length = (R.headD []).length) →
      Matrix.from_data R = Except.error
        (DataErr.shape j (R.headD []).length ((R.getD j []).length))) := by
  constructor
  · intro hrect hnoempty
    constructor
    · by_cases h0 : R.length = 0
      · have hR : R = [] := List.length_eq_zero.mp h0
        subst hR
        rfl
      · have hnone : firstBadRow (R.headD []).length R = none :=
          (firstBadRow_none_iff _ _).mpr hrect
        simp only [Matrix.from_data, set_raw_data, if_neg h0, hnone]
    · rw [Matrix.as_array]
      conv_rhs => rw [← List.map_id R]
      rw [List.map_map]
      apply List.map_congr_left
      intro row hrow
      rw [Function.comp_apply, List.map_map]
      conv_rhs => rw [← List.map_id row]
      apply List.map_congr_left
      intro v hv
      have hvne : v ≠ Val.empty := fun hEq => hnoempty row hrow (hEq ▸ hv)
      simp [Entry.ofValue, hvne]
  · intro j hj hbad hok
    have h0 : R.length ≠ 0 := by omega
    simp only [Matrix.from_data, set_raw_data, if_neg h0,
      firstBadRow_eq_some (R.headD []).length R j hj hbad hok]

/-- C7 witness: the amended round trip and the shape error, each applied at a
concrete input. -/
theorem C7_witness :
    (Matrix.from_data [[Val.num 1, Val.num 2]] =
        Except.ok ⟨1, 2, [[Entry.ofValue (Val.num 1), Entry.ofValue (Val.num 2)]]⟩ ∧
      (Matrix.mk 1 2 [[Entry.ofValue (Val.num 1), Entry.ofValue (Val.num 2)]]).as_array
          Val.undef = [[Val.num 1, Val.num 2]]) ∧
    Matrix.from_data [[Val.num 1], [Val.num 2, Val.num 3]] =
      Except.error (DataErr.shape 1 1 2) := by
  constructor
  · exact (C7_from_data_amended [[Val.num 1, Val.num 2]]).1 (by decide) (by decide)
  · exact (C7_from_data_amended [[Val.num 1], [Val.num 2, Val.num 3]]).2 1 (by decide)
      (by decide) (fun k hk => by
        have hk0 : k = 0 := by omega
        subst hk0
        decide)

/-- C7 counterexample: the claim fails on data containing the Empty sentinel
value, which is a legal importable value: `from_data([[Empty]])` succeeds, but
`as_array()` renders the cell as `undefined`, so the round trip does not
return the input. -/
theorem C7_empty_sentinel_counterexample :
    Matrix.from_data [[Val.empty]] = Except.ok (⟨1, 1, [[Val.empty]]⟩ : Matrix) ∧
    (⟨1, 1, [[Val.empty]]⟩ : Matrix).as_array Val.undef = [[Val.undef]] ∧
    [[Val.undef]] ≠ [[Val.empty]] := by
  exact ⟨rfl, rfl, by decide⟩

lemma getD_set_self {α : Type} (l : List α) (i : Nat) (a d : α) (h : i < l.length) :
    (l.set i a).getD i d = a := by
  rw [List.getD_eq_getElem?_getD, List.getElem?_set]
  simp [h]

lemma cell_after_set_empty (m : Matrix) (yn xn : Nat) :
    ((m.data.set yn ((m.data.getD yn []).set xn Val.empty)).getD yn []).getD xn
      Val.empty = Val.empty := by
  by_cases hy : yn < m.data.length
  · rw [getD_set_self _ _ _ _ hy]
    by_cases hx : xn < (m.data.getD yn []).length
    · rw [getD_set_self _ _ _ _ hx]
    · rw [List.getD_eq_getElem?_getD, List.getElem?_set, if_pos rfl, if_neg hx]
      rfl
  · have hnone : (m.data.set yn ((m.data.getD yn []).set xn Val.empty))[yn]? = none := by
      apply List.getElem?_eq_none
      rw [List.length_set]
      omega
    rw [List.getD_eq_getElem?_getD, List.getD_eq_getElem?_getD, hnone]
    rfl

/-- C9: passing the exported Empty sentinel as a value produces an empty cell:
an Entry constructed with the Empty argument is empty, and after a successful
`set(y, x, Empty)` both the raw cell and the Entry read back by `get` at
(y, x) are empty. -/
theorem C9_empty_sentinel_value (m : Matrix) (y x : Int) (m2 : Matrix)
    (hset : m.set y x Val.empty = Except.ok m2) :
    (Entry.ofValue Val.empty).is_empty = true ∧
    m2.get y x = Except.ok (Entry.ofValue Val.empty) ∧
    (m2.cell y.toNat x.toNat).is_empty = true := by
  have hbc : m.boundcheck y x "set" = none := by
    rw [Matrix.set] at hset
    cases h : m.boundcheck y x "set"
    · rfl
    · rw [h] at hset
      exact absurd hset (by simp)
  have hm2 : m2 = Matrix.mk m.height m.width (m.data.set y.toNat
      ((m.data.getD y.toNat []).set x.toNat (Entry.ofValue Val.empty))) := by
    rw [Matrix.set, hbc] at hset
    cases hset
    rfl
  have hcell : m2.cell y.toNat x.toNat = Val.empty := by
    rw [hm2, Matrix.cell]
    exact cell_after_set_empty m y.toNat x.toNat
  have hbc2 : m2.boundcheck y x "get" = none := by
    rw [boundcheck_none_iff] at hbc ⊢
    rw [hm2]
    exact hbc
  refine ⟨rfl, ?_, ?_⟩
  · rw [Matrix.get, hbc2, hcell]
    rfl
  · rw [hcell]
    rfl

/-- C9 witness: setting the Empty sentinel on a concrete 1 by 1 matrix leaves
the cell empty. -/
theorem C9_witness :
    (Entry.ofValue Val.empty).is_empty = true ∧
    (⟨1, 1, [[Val.empty]]⟩ : Matrix).get 0 0 = Except.ok (Entry.ofValue Val.empty) ∧
    ((⟨1, 1, [[Val.empty]]⟩ : Matrix).cell (0 : Int).toNat (0 : Int).toNat).is_empty
      = true :=
  C9_empty_sentinel_value (Matrix.new 1 1) 0 0 ⟨1, 1, [[Val.empty]]⟩ rfl

/-- C5: the claim that a constant fill initializes every cell matches the
constructor comment in matrix.mjs, but the code calls `opts.fill` as a
function unconditionally, so a constant fill on a matrix with positive
dimensions throws a TypeError instead, while a function fill works as
documented with cell (y, x) holding the Entry-wrapped `fill(x, y)`. -/
theorem C5_constant_fill_crashes :
    Matrix.newWithFill 1 1 (FillOpt.const (Val.num 7)) =
      Except.error "TypeError: fill is not a function" ∧
    Matrix.newWithFill 2 3 (FillOpt.fn (fun x y => Val.num (x + 10 * y))) =
      Except.ok ⟨2, 3,
        [[Entry.ofValue (Val.num 0), Entry.ofValue (Val.num 1), Entry.ofValue (Val.num 2)],
         [Entry.ofValue (Val.num 10), Entry.ofValue (Val.num 11),
          Entry.ofValue (Val.num 12)]]⟩ := by
  exact ⟨rfl, rfl⟩

lemma dedupSort_eq_nil_iff {l : List Nat} : dedupSort l = [] ↔ l = [] := by
  constructor
  · intro h
    rw [List.eq_nil_iff_forall_not_mem]
    intro a ha
    have h2 := mem_dedupSort.mpr ha
    rw [h] at h2
    simp at h2
  · intro h
    subst h
    rfl

lemma wernRows_nil_iff (m : Matrix) : m.wernRows = [] ↔ m.entries = [] := by
  rw [Matrix.wernRows, dedupSort_eq_nil_iff, List.map_eq_nil_iff, List.map_eq_nil_iff]

lemma wernCols_nil_iff (m : Matrix) : m.wernCols = [] ↔ m.entries = [] := by
  rw [Matrix.wernCols, dedupSort_eq_nil_iff, List.map_eq_nil_iff, List.map_eq_nil_iff]

lemma wern_new_columns_map {β : Type} (m : Matrix) (g : Nat → β) :
    (m.without_empty_rows_and_columns).new_columns.map (fun p => g p.1) =
      m.wernCols.map g := by
  rw [Matrix.without_empty_rows_and_columns]
  split
  · rename_i hif
    have hc : m.wernCols = [] := by
      rcases hif with h1 | h1
      · exact (wernCols_nil_iff m).mpr ((wernRows_nil_iff m).mp (List.isEmpty_iff.mp h1))
      · exact List.isEmpty_iff.mp h1
    simp [hc]
  · show (m.wernCols.enum.map (fun p => (p.2, p.1))).map (fun p => g p.1) = _
    rw [List.map_map]
    have hfe : ((fun p : Nat × Nat => g p.1) ∘ (fun p : Nat × Nat => (p.2, p.1)))
        = (fun p : Nat × Nat => g p.2) := rfl
    rw [hfe, show (fun p : Nat × Nat => g p.2) = g ∘ Prod.snd from rfl,
      ← List.map_map, List.enum_map_snd]

lemma enumFrom_filter_map (q : Nat → Bool) (l : List String) (s : Nat) :
    ((List.enumFrom s l).filter (fun p => q p.1)).map (fun p => p.2) =
      ((List.range' s l.length).filter q).map (fun i => l.getD (i - s) "") := by
  induction l generalizing s with
  | nil => rfl
  | cons a l ih =>
    show ((((s, a) :: List.enumFrom (s + 1) l).filter (fun p => q p.1)).map
        (fun p => p.2)) =
      ((List.filter q (s :: List.range' (s + 1) l.length)).map
        (fun i => (a :: l).getD (i - s) ""))
    by_cases hq : q s = true
    · rw [List.filter_cons_of_pos (by simpa using hq), List.filter_cons_of_pos hq]
      rw [List.map_cons, List.map_cons]
      congr 1
      · show a = (a :: l).getD (s - s) ""
        rw [Nat.sub_self, List.getD_cons_zero]
      · rw [ih (s + 1)]
        apply List.map_congr_left
        intro i hi
        have h1 : s + 1 ≤ i := (List.mem_range'_1.mp (List.mem_filter.mp hi).1).1
        rw [show i - s = (i - (s + 1)) + 1 by omega, List.getD_cons_succ]
    · rw [List.filter_cons_of_neg (by simpa using hq), List.filter_cons_of_neg hq]
      rw [ih (s + 1)]
      apply List.map_congr_left
      intro i hi
      have h1 : s + 1 ≤ i := (List.mem_range'_1.mp (List.mem_filter.mp hi).1).1
      rw [show i - s = (i - (s + 1)) + 1 by omega, List.getD_cons_succ]

lemma enum_filter_map (q : Nat → Bool) (l : List String) :
    (l.enum.filter (fun p => q p.1)).map (fun p => p.2) =
      ((List.range l.length).filter q).map (fun i => l.getD i "") := by
  have h := enumFrom_filter_map q l 0
  rw [show List.enumFrom 0 l = l.enum from rfl, ← List.range_eq_range'] at h
  rw [h]
  apply List.map_congr_left
  intro i hi
  rw [Nat.sub_zero]

lemma respan_length (lls : List (List String)) :
    (respan lls).length = (lls.filter (fun r => !r.isEmpty)).length := by
  induction lls with
  | nil => rfl
  | cons row rest ih =>
    cases row with
    | nil =>
      show (List.filterMap respanRow ([] :: rest)).length = _
      rw [List.filterMap_cons]
      show (List.filterMap respanRow rest).length = _
      rw [List.filter_cons_of_neg (by decide)]
      exact ih
    | cons v vs =>
      show (List.filterMap respanRow ((v :: vs) :: rest)).length = _
      rw [List.filterMap_cons]
      show (runLength v 1 vs :: List.filterMap respanRow rest).length = _
      rw [List.filter_cons_of_pos (by rfl), List.length_cons, List.length_cons]
      show (respan rest).length + 1 = (List.filter (fun r => !r.isEmpty) rest).length + 1
      rw [ih]

lemma respan_nil_of_all_nil (lls : List (List String)) (h : ∀ x ∈ lls, x = []) :
    respan lls = [] := by
  induction lls with
  | nil => rfl
  | cons row rest ih =>
    have hr : row = [] := h row (by simp)
    subst hr
    show List.filterMap respanRow ([] :: rest) = []
    rw [List.filterMap_cons]
    exact ih (fun x hx => h x (by simp [hx]))

/-- C1: parsing the four-line scenario input yields row headers 1 and 2, a
first header row A, B, C with spans 1, 1, 3, a second header row a, b, c1,
c2, c3 all with span 1, and an all-empty 2 by 5 data matrix. -/
theorem C1_from_format_scenario :
    Table.from_format scenarioInput none =
      { caption := none, data := Matrix.new 2 5,
        row_headers := ["1", "2"],
        column_headers :=
          [[{ text := "A", span := 1 }, { text := "B", span := 1 },
            { text := "C", span := 3 }],
           [{ text := "a", span := 1 }, { text := "b", span := 1 },
            { text := "c1", span := 1 }, { text := "c2", span := 1 },
            { text := "c3", span := 1 }]] } := by
  decide

/-- C2 (amended): for header rows whose cells all have span at least 1 and
which are non-empty, despanned row lengths equal the span sums; for non-empty
label rows, respan output span sums equal the label row lengths row by row;
and when additionally no two adjacent cells within a row share the same text,
respan after despan is the identity. The claim as stated fails on a header
list containing an empty row, which respan drops. -/
theorem C2_despan_respan_amended (h : List (List HCell)) (lls : List (List String))
    (hsp : ∀ row ∈ h, ∀ c ∈ row, 1 ≤ c.span)
    (hrne : ∀ row ∈ h, row ≠ [])
    (hch : ∀ row ∈ h, List.Chain' (fun a b : HCell => a.text ≠ b.text) row)
    (hlne : ∀ row ∈ lls, row ≠ []) :
    List.Forall₂ (fun d r => (d.length : Nat) = (r.map HCell.span).sum) (despan h) h ∧
    List.Forall₂ (fun out inp => ((out.map HCell.span).sum : Nat) = inp.length)
      (respan lls) lls ∧
    respan (despan h) = h :=
  ⟨despan_lengths h, respan_span_sums lls hlne, respan_despan h hsp hrne hch⟩

/-- C2 witness: the amended statement applied at a concrete header list with
a spanned cell and a concrete label row list with a repeated label. -/
theorem C2_witness :
    List.Forall₂ (fun d r => (d.length : Nat) = (r.map HCell.span).sum)
      (despan [[{ text := "A", span := 1 }, { text := "C", span := 3 }]])
      [[{ text := "A", span := 1 }, { text := "C", span := 3 }]] ∧
    List.Forall₂ (fun out inp => ((out.map HCell.span).sum : Nat) = inp.length)
      (respan [["a", "a", "b"]]) [["a", "a", "b"]] ∧
    respan (despan [[{ text := "A", span := 1 }, { text := "C", span := 3 }]]) =
      [[{ text := "A", span := 1 }, { text := "C", span := 3 }]] :=
  C2_despan_respan_amended [[{ text := "A", span := 1 }, { text := "C", span := 3 }]]
    [["a", "a", "b"]] (by decide) (by decide)
    (by
      intro row hrow
      rw [List.mem_singleton] at hrow
      subst hrow
      exact List.chain'_cons.mpr ⟨by decide, List.chain'_singleton _⟩)
    (by decide)

/-- C2 counterexample: the empty header row has all spans at least 1 and no
equal adjacent texts vacuously, yet respan after despan drops it instead of
returning it, so the claim as stated is false at `[[]]`. -/
theorem C2_empty_row_counterexample :
    (∀ c ∈ ([] : List HCell), 1 ≤ c.span) ∧
    List.Chain' (fun a b : HCell => a.text ≠ b.text) ([] : List HCell) ∧
    respan (despan [([] : List HCell)]) = [] ∧
    respan (despan [([] : List HCell)]) ≠ [([] : List HCell)] := by
  exact ⟨by simp, List.chain'_nil, rfl, by decide⟩

/-- C3: after pruning, every rebuilt column-header row has one cell per
surviving column in ascending old-index order, each cell with span exactly 1
and with text the despanned label of that column at its original index; no
equal neighboring labels are merged (every span is 1). Stated for tables
satisfying the data-model invariant that each despanned header row covers
the matrix width. -/
theorem C3_pruned_headers_span_one (t : Table)
    (hspan : ∀ i, i < t.column_headers.length →
      ((despan t.column_headers).getD i []).length = t.data.width) :
    (t.without_empty_rows_and_columns).column_headers.length
        = t.column_headers.length ∧
    (∀ i, i < t.column_headers.length →
      (t.without_empty_rows_and_columns).column_headers.getD i [] =
        ((List.range t.data.width).filter t.data.colHasValue).map (fun c =>
          ({ text := ((despan t.column_headers).getD i []).getD c "",
             span := 1 } : HCell))) ∧
    (∀ i, i < t.column_headers.length →
      ∀ c ∈ (List.range t.data.width).filter t.data.colHasValue,
        c < ((despan t.column_headers).getD i []).length) := by
  refine ⟨?_, ?_, ?_⟩
  · show ((List.range t.column_headers.length).map _).length = _
    rw [List.length_map, List.length_range]
  · intro i hi
    show ((List.range t.column_headers.length).map (fun i =>
        (t.data.without_empty_rows_and_columns).new_columns.map (fun p =>
          ({ text := ((despan t.column_headers).getD i []).getD p.1 "",
             span := 1 } : HCell)))).getD i [] = _
    rw [getD_map_of_lt _ _ _ _ (by simpa using hi), List.getElem_range]
    rw [wern_new_columns_map t.data (fun c =>
      ({ text := ((despan t.column_headers).getD i []).getD c "", span := 1 } : HCell))]
    rw [wernCols_eq]
  · intro i hi c hc
    rw [List.mem_filter, List.mem_range] at hc
    rw [hspan i hi]
    exact hc.1

/-- C3 witness: the statement applied to a concrete table with a span-2
header cell over a half-empty 1 by 2 matrix. -/
theorem C3_witness :
    (tSpan.without_empty_rows_and_columns).column_headers.length
        = tSpan.column_headers.length ∧
    (∀ i, i < tSpan.column_headers.length →
      (tSpan.without_empty_rows_and_columns).column_headers.getD i [] =
        ((List.range tSpan.data.width).filter tSpan.data.colHasValue).map (fun c =>
          ({ text := ((despan tSpan.column_headers).getD i []).getD c "",
             span := 1 } : HCell))) ∧
    (∀ i, i < tSpan.column_headers.length →
      ∀ c ∈ (List.range tSpan.data.width).filter tSpan.data.colHasValue,
        c < ((despan tSpan.column_headers).getD i []).length) :=
  C3_pruned_headers_span_one tSpan (by decide)

/-- C4 (amended): Table.slice rebuilds the column headers by despanning,
keeping in each despanned row exactly the labels whose index occurs in
`columns`, in ascending original index order and each at most once regardless
of the order and multiplicity of `columns`, then respanning. The claim as
stated orders the kept labels by the order given in `columns`, which the code
does not do. -/
theorem C4_slice_headers_amended (t : Table) (rows columns : List Nat)
    (_hrows : ∀ r ∈ rows, r < t.data.height)
    (_hcols : ∀ c ∈ columns, c < t.data.width) :
    (t.slice rows columns).column_headers =
      respan ((despan t.column_headers).map (fun labels =>
        ((List.range labels.length).filter (fun i => decide (i ∈ columns))).map
          (fun i => labels.getD i ""))) := by
  show respan ((despan t.column_headers).map (fun ch_row =>
      (ch_row.enum.filter (fun p => decide (p.1 ∈ columns))).map (fun p => p.2))) = _
  congr 1
  apply List.map_congr_left
  intro labels _
  exact enum_filter_map (fun i => decide (i ∈ columns)) labels

/-- C4 witness: the amended statement applied to a concrete table and
concrete in-bounds index lists. -/
theorem C4_witness :
    (Table.slice tAB [0] [0, 1]).column_headers =
      respan ((despan tAB.column_headers).map (fun labels =>
        ((List.range labels.length).filter (fun i => decide (i ∈ [0, 1]))).map
          (fun i => labels.getD i ""))) :=
  C4_slice_headers_amended tAB [0] [0, 1] (by decide) (by decide)

/-- C4 counterexample: with columns = [1, 0] the code keeps the despanned
labels in ascending original index order (a then b), not in the order given
in columns (b then a), refuting the claim as stated. -/
theorem C4_column_order_counterexample :
    (Table.slice tAB [0] [1, 0]).column_headers =
      [[{ text := "a", span := 1 }, { text := "b", span := 1 }]] ∧
    (Table.slice tAB [0] [1, 0]).column_headers ≠
      respan ((despan tAB.column_headers).map (fun labels =>
        ([1, 0].filter (fun i => decide (i < labels.length))).map
          (fun i => labels.getD i ""))) := by
  exact ⟨by decide, by decide⟩

/-- C10 (amended): respan emits exactly one run row per non-empty input label
row; hence Table.slice with in-bounds index lists and a columns list that
keeps no despanned label index, on a table with at least one column-header
row, returns a table with no column-header rows at all, strictly fewer than
the original. The claim as stated fails for tables with no column-header
rows. -/
theorem C10_respan_drops_empty_amended (t : Table) (rows columns : List Nat)
    (_hrows : ∀ r ∈ rows, r < t.data.height)
    (_hcols : ∀ c ∈ columns, c < t.data.width)
    (hkeep : ∀ labels ∈ despan t.column_headers, ∀ i, i < labels.length →
      ¬(i ∈ columns))
    (hne : t.column_headers ≠ []) :
    (∀ lls : List (List String),
      (respan lls).length = (lls.filter (fun r => !r.isEmpty)).length) ∧
    (t.slice rows columns).column_headers = [] ∧
    (t.slice rows columns).column_headers.length < t.column_headers.length := by
  have hch : (t.slice rows columns).column_headers = [] := by
    show respan ((despan t.column_headers).map (fun ch_row =>
        (ch_row.enum.filter (fun p => decide (p.1 ∈ columns))).map (fun p => p.2))) = []
    apply respan_nil_of_all_nil
    intro x hx
    rw [List.mem_map] at hx
    obtain ⟨labels, hlab, rfl⟩ := hx
    rw [List.map_eq_nil_iff]
    apply List.filter_eq_nil_iff.mpr
    intro p hp
    obtain ⟨i, v⟩ := p
    have hb := List.mem_enumFrom hp
    simp only [Nat.zero_add] at hb
    simp only [decide_eq_true_eq]
    exact hkeep labels hlab i hb.2.1
  refine ⟨respan_length, hch, ?_⟩
  rw [hch]
  show 0 < t.column_headers.length
  exact List.length_pos.mpr hne

/-- C10 witness: the amended statement applied to a concrete two-column table
with an empty columns list. -/
theorem C10_witness :
    (∀ lls : List (List String),
      (respan lls).length = (lls.filter (fun r => !r.isEmpty)).length) ∧
    (Table.slice tAB [0] []).column_headers = [] ∧
    (Table.slice tAB [0] []).column_headers.length < tAB.column_headers.length :=
  C10_respan_drops_empty_amended tAB [0] [] (by decide) (by decide) (by decide)
    (by decide)

/-- C10 counterexample: on a table with no column-header rows, a slice whose
columns list keeps nothing returns an equal, not strictly smaller, number of
column-header rows, so the claim as stated fails there. -/
theorem C10_no_headers_counterexample :
    tNoHeaders.column_headers = [] ∧
    (Table.slice tNoHeaders [0] []).column_headers.length =
      tNoHeaders.column_headers.length ∧
    ¬((Table.slice tNoHeaders [0] []).column_headers.length <
      tNoHeaders.column_headers.length) := by
  exact ⟨rfl, rfl, by decide⟩

end Tablelib
